import Mathlib

/-!
Verification of the customer-service chatbot backend
(`project_backend/src/services/rag_service.py` and
`project_backend/src/services/groq_service.py`).

The Python code is shallowly embedded: pure string manipulation is
translated to executable Lean functions on `String` / `List Char`,
floating-point similarity scores become `ℚ` (the code only compares and
averages them), Python `None` becomes `Option`, and calls to external
services (the Groq LLM API, the FAISS retriever, the TF-IDF vectorizer,
the filesystem) are modelled as explicit parameters: an `Option String`
for an LLM reply (`none` = API failure), an `Except Unit _` for a call
that may raise, a `List ℚ` for the cosine-similarity scores the external
vectorizer produces.  Python exceptions raised by a modelled call site
are `Except.error`; `try/except` blocks become `match` on that value.
-/

namespace ChatbotSpec

/-! ### Python string primitives

`isPyWs` is Python's `str.strip()` / `\s` whitespace class (ASCII part);
`pyStripL` / `pyStrip` are `str.strip()`; `ciEq` is case-insensitive
character comparison as used by `re.IGNORECASE`. -/

def isPyWs (c : Char) : Bool :=
  c == ' ' || c == '\t' || c == '\n' || c == '\r' || c == '\x0b' || c == '\x0c'

def pyStripL (s : List Char) : List Char :=
  ((s.dropWhile isPyWs).reverse.dropWhile isPyWs).reverse

def pyStrip (s : String) : String :=
  String.mk (pyStripL s.toList)

/-- Python's `str.lower()` (ASCII part), implemented on the character list
so that it evaluates by kernel reduction. -/
def pyLower (s : String) : String :=
  String.mk (s.toList.map Char.toLower)

def ciEq (a b : Char) : Bool :=
  a.toLower == b.toLower

/-- `ciStarts pat s`: `pat` matches case-insensitively at the head of `s`. -/
def ciStarts : List Char → List Char → Bool
  | [], _ => true
  | _ :: _, [] => false
  | p :: ps, c :: cs => ciEq p c && ciStarts ps cs

/-- Text after the first (leftmost) case-insensitive occurrence of `pat` in
`s`, or `none` when `pat` does not occur: the semantics of a lazy
`.*?pat` / `re.search` scan under `re.IGNORECASE | re.DOTALL`. -/
def afterFirst (pat : List Char) : List Char → Option (List Char)
  | [] => if pat.isEmpty then some [] else none
  | c :: cs =>
    if ciStarts pat (c :: cs) then some (List.drop pat.length (c :: cs))
    else afterFirst pat cs

/-- Drop through the first newline (the lazy `.*?\n`); `none` when there is
no newline left. -/
def dropThroughNl : List Char → Option (List Char)
  | [] => none
  | c :: cs => if c == '\n' then some cs else dropThroughNl cs

/-- Case-sensitive substring test (Python's `pat in s`). -/
def strContains (s pat : String) : Bool :=
  s.toList.tails.any (fun t => pat.toList.isPrefixOf t)

/-! ### `GroqService.analyze_query_intent` and `GroqService.check_relevance`

The LLM reply is the value `GroqService._chat` returned: `none` on any
API failure, otherwise the (already `.strip()`ed) message content.
Python truthiness of the reply string (`if result and ...`,
`result and result.strip().lower() == 'relevant'`) is modelled
explicitly; `check_relevance` returns the truthiness of the Python
return value (which is `None`/`''`/`bool` in the source). -/

def valid_intents : List String :=
  ["greeting", "farewell", "pricing", "products", "support", "technical",
   "general", "irrelevant"]

def analyze_query_intent (result : Option String) : String :=
  match result with
  | some r => if r ≠ "" ∧ valid_intents.contains (pyLower r) then pyLower r else "general"
  | none => "general"

def check_relevance (result : Option String) : Bool :=
  match result with
  | some r => r ≠ "" && pyLower (pyStrip r) == "relevant"
  | none => false

/-! ### `GroqService._clean_response` and `GroqService._fallback_response`

Each concrete regular expression of the source is implemented directly as
a string algorithm with the same semantics:

* `re.sub(pat, repl, s, flags=re.IGNORECASE)` for the literal placeholder
  patterns is `ciReplaceAll` (leftmost, non-overlapping, case-insensitive);
* `re.sub(r'^.*?LIT.*?\n.*?\n', '', s, flags=re.IGNORECASE | re.DOTALL)`
  removes the prefix through the second newline after the first
  case-insensitive occurrence of `LIT`, if that exists (`stripLeadSig`);
* each end-of-text signature pattern `\n\s*... .*$` (flags
  `IGNORECASE | MULTILINE | DOTALL`) removes everything from the leftmost
  newline at which the rest of the pattern matches (`stripEndSig`); the
  pattern bodies are token lists over literals, `\s*`, `\s*\n\s*` and `.*`
  (`SigTok` / `matchToksB`).  Since every literal starts with a
  non-whitespace character, a greedy `\s*` can only stop at the end of
  the maximal whitespace run, which is what `matchToksB` does. -/

def ciReplaceAux (pat repl : List Char) : Nat → List Char → List Char
  | _, [] => []
  | 0, s => s
  | fuel + 1, c :: cs =>
    if ciStarts pat (c :: cs) && !pat.isEmpty then
      repl ++ ciReplaceAux pat repl fuel (List.drop (pat.length - 1) cs)
    else c :: ciReplaceAux pat repl fuel cs

/-- `re.sub` with a case-insensitive literal pattern. -/
def ciReplaceAll (pat repl s : List Char) : List Char :=
  ciReplaceAux pat repl s.length s

def placeholder_patterns : List (List Char) :=
  ["[Your Name]".toList, "[Agent Name]".toList,
   "[Customer Service Representative]".toList, "[Representative Name]".toList,
   "[Name]".toList, "[Agent]".toList, "[CSR]".toList]

/-- `re.sub(r'^.*?PAT.*?\n.*?\n', '', s)`: strip a signature block from the
start of the text. -/
def stripLeadSig (pat s : List Char) : List Char :=
  match afterFirst pat s with
  | none => s
  | some u =>
    match dropThroughNl u with
    | none => s
    | some v =>
      match dropThroughNl v with
      | none => s
      | some w => w

/-- One token of an end-of-text signature pattern: a literal, `\s*`,
`\s*\n\s*`, or `.*` (under `DOTALL`). -/
inductive SigTok where
  | lit (cs : List Char)
  | ws
  | wsnl
  | any
deriving DecidableEq

def matchToksB : List SigTok → List Char → Bool
  | [], _ => true
  | .lit cs :: ts, s => ciStarts cs s && matchToksB ts (List.drop cs.length s)
  | .ws :: ts, s => matchToksB ts (s.dropWhile isPyWs)
  | .wsnl :: ts, s =>
    (s.takeWhile isPyWs).contains '\n' && matchToksB ts (s.dropWhile isPyWs)
  | .any :: .lit cs :: ts, s =>
    match afterFirst cs s with
    | none => false
    | some u => matchToksB ts u
  | .any :: _, _ => true

/-- Remove everything from the leftmost newline at which `toks` (the body of
an `\n\s*... .*$` end-signature pattern, without the leading newline)
matches, to the end of the text. -/
def stripEndSig (toks : List SigTok) : List Char → List Char
  | [] => []
  | c :: cs =>
    if c == '\n' && matchToksB toks cs then []
    else c :: stripEndSig toks cs

/-- Bodies (after the leading `\n`) of the end-signature patterns, in the
order the source applies them; the final entry is the extra
`\n\s*Best regards,.*TechCorp.*Service.*$` pass. -/
def end_signature_patterns : List (List SigTok) :=
  [[.ws, .lit "Best regards,".toList],
   [.ws, .lit "Sincerely,".toList],
   [.ws, .lit "Thank you,".toList],
   [.ws, .lit "Regards,".toList],
   [.ws, .lit "TechCorp Solutions".toList],
   [.ws, .lit "Customer Service".toList],
   [.ws, .lit "AI Assistant".toList],
   [.ws, .lit "Best regards,".toList, .ws,
    .lit "TechCorp Solutions Customer Service".toList],
   [.ws, .lit "Best regards,".toList, .wsnl,
    .lit "TechCorp Solutions Customer Service".toList],
   [.ws, .lit "Best regards,".toList, .wsnl, .lit "TechCorp Solutions".toList,
    .wsnl, .lit "Customer Service".toList],
   [.ws, .lit "Best regards,".toList, .any, .lit "TechCorp".toList, .any,
    .lit "Service".toList]]

/-- The character class `[\w\s\-:]` of the markdown-header check. -/
def isHdrClass (c : Char) : Bool :=
  c.isAlphanum || c == '_' || isPyWs c || c == '-' || c == ':'

/-- The optional tails `(\*\*)?:?$` of the header pattern, where `$`
(no `MULTILINE`) also matches just before a final newline. -/
def hdrTails : List (List Char) :=
  [[], [':'], ['*', '*'], ['*', '*', ':'], ['\n'], [':', '\n'],
   ['*', '*', '\n'], ['*', '*', ':', '\n']]

/-- ` ?[\w\s\-:]+(\*\*)?:?$` applied to the text after the header marker.
The optional leading space is subsumed by the class (which contains the
space), so the check is a decomposition body ++ tail with a non-empty
all-class body. -/
def hdrRestMatch (r : List Char) : Bool :=
  hdrTails.any (fun suf =>
    suf.isSuffixOf r &&
      (let b := r.take (r.length - suf.length)
       !b.isEmpty && b.all isHdrClass))

def hdrMarks : List (List Char) :=
  [['*', '*'], ['#'], ['#', '#'], ['#', '#', '#'], ['#', '#', '#', '#'],
   ['#', '#', '#', '#', '#'], ['#', '#', '#', '#', '#', '#']]

/-- `re.match(r'^(\*\*|#|##|###|####|#####|######) ?[\w\s\-:]+(\*\*)?:?$', s)`. -/
def isMdHeader (s : List Char) : Bool :=
  hdrMarks.any (fun m => m.isPrefixOf s && hdrRestMatch (List.drop m.length s))

/-- `re.search(r'best regards.*techcorp.*service', s, IGNORECASE | DOTALL)`. -/
def hasSigPat (s : List Char) : Bool :=
  match afterFirst "best regards".toList s with
  | none => false
  | some u =>
    match afterFirst "techcorp".toList u with
    | none => false
    | some v => (afterFirst "service".toList v).isSome

/-- `GroqService._fallback_response` with empty query and empty context,
exactly as `_clean_response` invokes it. -/
def fallback_response_noctx : String :=
  "**Information Request**\n\nI apologize, but I don\x27t have specific information about that topic in my knowledge base.\n\n**Available Support:**\n• **Services:** Cloud Migration, AI/ML Solutions, Cybersecurity, Web Development\n• **Contact:** sales@techcorp.com\n• **Phone:** **+1 (555) 123-4568**\n• **Response Time:** Within **2 business hours**" ++
  "\n\nBest regards,\nTechCorp Solutions Customer Service"

def signature_tail : List Char :=
  "Best regards,\nTechCorp Solutions Customer Service".toList

def tcs_replacement : List Char :=
  "TechCorp Solutions Customer Service".toList

/-- The cleaned text of `_clean_response` just before the length/header
gate: placeholder replacement, the three start-of-text signature strips,
the end-of-text signature strips, then `strip()`. -/
def cleaned_core (response : List Char) : List Char :=
  let c1 := placeholder_patterns.foldl (fun s p => ciReplaceAll p tcs_replacement s) response
  let c2 := stripLeadSig "best regards,".toList c1
  let c3 := stripLeadSig "sincerely,".toList c2
  let c4 := stripLeadSig "thank you,".toList c3
  let c5 := end_signature_patterns.foldl (fun s t => stripEndSig t s) c4
  pyStripL c5

/-- The "too short / canned greeting / bare markdown header" gate of
`_clean_response`. -/
def cleanGateB (c : List Char) : Bool :=
  decide (c.length < 20) ||
  (c.map Char.toLower == ([] : List Char) ||
   c.map Char.toLower == "dear customer".toList ||
   c.map Char.toLower == "dear valued customer".toList) ||
  isMdHeader c

/-- `GroqService._clean_response`. -/
def clean_response (response : List Char) : List Char :=
  if response.isEmpty then fallback_response_noctx.toList
  else
    let c := cleaned_core response
    if cleanGateB c then fallback_response_noctx.toList
    else if hasSigPat c then c
    else c ++ "\n\n".toList ++ signature_tail

/-! ### `RAGService.search_documents` (legacy TF-IDF search)

The knowledge-base entries are dictionaries with `title`, `content` and
`full_title` keys (`KBDoc`; the `processed_content` key only feeds the
external TF-IDF vectorizer and is not modelled).  The cosine-similarity
scores the external `sklearn` vectorizer computes for a query are the
abstract parameter `sims` (`sims[i]` is the score of `documents[i]`);
`self.document_vectors is None` is the flag `vectors_built`.
`np.argsort(similarities)[::-1]` is modelled by a comparison sort of the
indices in descending score order (tie order is unspecified in both). -/

structure KBDoc where
  title : String
  content : String
  full_title : String
deriving DecidableEq

structure SearchResult where
  title : String
  full_title : String
  content : String
  similarity : ℚ
deriving DecidableEq

def simOf (sims : List ℚ) (i : Nat) : ℚ := sims.getD i 0

/-- `np.argsort(similarities)[::-1][:top_k]`. -/
def topIndicesOf (sims : List ℚ) (top_k : Nat) : List Nat :=
  (List.insertionSort (fun i j => simOf sims j ≤ simOf sims i)
    (List.range sims.length)).take top_k

/-- The considered top indices whose score clears the `> 0.2` threshold. -/
def passingIndices (sims : List ℚ) (top_k : Nat) : List Nat :=
  (topIndicesOf sims top_k).filter (fun i => 1/5 < simOf sims i)

/-- The loop variable `max_sim`: the best score among the considered top
matches that cleared the `0.2` threshold (initialised to `0`). -/
def max_considered_sim (sims : List ℚ) (top_k : Nat) : ℚ :=
  ((passingIndices sims top_k).map (simOf sims)).foldl max 0

def default_kbdoc : KBDoc := { title := "Unknown", content := "", full_title := "Unknown" }

/-- `RAGService.search_documents`. -/
def search_documents (documents : List KBDoc) (vectors_built : Bool)
    (sims : List ℚ) (top_k : Nat) : List SearchResult :=
  if documents.isEmpty || !vectors_built then []
  else
    let results := (passingIndices sims top_k).map (fun i =>
      let d := documents.getD i default_kbdoc
      { title := d.title, full_title := d.full_title, content := d.content,
        similarity := simOf sims i })
    if max_considered_sim sims top_k < 2/5 then [] else results

/-! ### `RAGService.search_documents_faiss`

A document returned by the LangChain retriever carries `page_content` and
`metadata`.  The retriever call `retriever.invoke(query)` is the abstract
parameter `retrieved : Except Unit (List RetrievedDoc)` (`.error` = the
call raised).  The loop synthesises the score `0.8 - 0.1 * i` for the
document of rank `i`; the `enumerate` loop becomes recursion with an
explicit counter (`faiss_results_raw`). -/

structure RetrievedDoc where
  page_content : String
  metadata : List (String × String)
deriving DecidableEq

structure FaissResult where
  title : String
  content : String
  metadata : List (String × String)
  similarity : ℚ
deriving DecidableEq

def faiss_sim (i : Nat) : ℚ := 4/5 - (i : ℚ) / 10

def faiss_results_raw (i : Nat) : List RetrievedDoc → List FaissResult
  | [] => []
  | d :: ds =>
    if 1/5 < faiss_sim i then
      { title := "Document " ++ toString (i + 1), content := d.page_content,
        metadata := d.metadata, similarity := faiss_sim i } ::
        faiss_results_raw (i + 1) ds
    else faiss_results_raw (i + 1) ds

/-- The loop variable `max_sim` of the FAISS branch. -/
def faiss_max_sim (docs : List RetrievedDoc) : ℚ :=
  ((faiss_results_raw 0 docs).map (fun r => r.similarity)).foldl max 0

/-- The FAISS branch of `search_documents_faiss`: ranked results with
synthesised scores, gated by `max_sim < 0.4`. -/
def faiss_search_core (docs : List RetrievedDoc) : List FaissResult :=
  let results := faiss_results_raw 0 docs
  if faiss_max_sim docs < 2/5 then [] else results

/-- Which code path produced the search results. -/
inductive SearchOutcome where
  | viaFaiss (results : List FaissResult)
  | viaLegacy (results : List SearchResult)
deriving DecidableEq

/-- `RAGService.search_documents_faiss`.  `has_faiss_index` models
`hasattr(self, 'faiss_index') and self.faiss_index is not None`. -/
def search_documents_faiss (has_faiss_index : Bool) (documents : List KBDoc)
    (vectors_built : Bool) (sims : List ℚ)
    (retrieved : Except Unit (List RetrievedDoc)) (top_k : Nat) : SearchOutcome :=
  if !has_faiss_index || documents.isEmpty then
    .viaLegacy (search_documents documents vectors_built sims top_k)
  else
    match retrieved with
    | .ok docs => .viaFaiss (faiss_search_core docs)
    | .error _ => .viaLegacy (search_documents documents vectors_built sims top_k)

/-! ### `RAGService.process_message`

The three LLM classifications (`is_greeting`, `is_farewell`,
`is_relevant_to_company`) are separate API calls; their raw replies are
the parameters `greet_reply`, `farewell_reply`, `relevance_reply`
(`none` = API failure), put through the `GroqService` normalizers above.
The two fallible calls inside the `try` block — document retrieval and
response generation — are the parameters `search_result` and
`gen_result`; `Except.error` means the call raised, and the `except`
branch of the source is the `.error` match arm. -/

def greeting_response_text : String :=
  "Hello! I\x27m your dedicated customer service assistant. I\x27m here to help you with information about our services, pricing, technical support, and any other questions you may have. How can I assist you today?"

def farewell_response_text : String :=
  "Thank you for contacting us! I hope I was able to help you today. If you have any further questions or need assistance in the future, please don\x27t hesitate to reach out. Have a great day!"

def default_suggestions : List String :=
  ["Tell me about your tech services", "What are your pricing plans?",
   "I need technical support", "How can I contact you?"]

/-- `RAGService.generate_fallback_response`. -/
def generate_fallback_response (query : String) : String :=
  "I don\x27t have specific information about \"" ++ query ++
  "\" in our knowledge base. \n\nFor detailed assistance, please contact our support team at support@techcorpsolutions.com or call 1-800-TECHCORP.\n\nBest regards,\nTechCorp Solutions Customer Service"

/-- `RAGService.generate_suggested_responses` (the `relevant_docs` argument
is unused in the source body as well). -/
def generate_suggested_responses (query : String)
    (relevant_docs : List FaissResult) : List String :=
  let query_lower := pyLower query
  if ["cloud", "migration"].any (fun w => strContains query_lower w) then
    ["What\x27s the timeline for cloud migration?",
     "Do you support hybrid cloud solutions?",
     "What\x27s included in the migration process?"]
  else if ["ai", "machine learning", "ml"].any (fun w => strContains query_lower w) then
    ["What types of AI solutions do you offer?",
     "How long does AI development take?",
     "Do you provide AI consulting?"]
  else if ["security", "cybersecurity"].any (fun w => strContains query_lower w) then
    ["What security certifications do you have?",
     "Do you offer 24/7 security monitoring?",
     "What\x27s your incident response time?"]
  else if ["web", "website", "application"].any (fun w => strContains query_lower w) then
    ["What technologies do you use for web development?",
     "Do you provide ongoing maintenance?",
     "Can you help with e-commerce platforms?"]
  else if ["mobile", "app"].any (fun w => strContains query_lower w) then
    ["Do you develop for both iOS and Android?",
     "What\x27s the cost of mobile app development?",
     "Do you provide app maintenance services?"]
  else if ["data", "analytics"].any (fun w => strContains query_lower w) then
    ["What BI tools do you work with?",
     "Can you help with data strategy?",
     "Do you provide custom dashboards?"]
  else if ["price", "cost", "pricing"].any (fun w => strContains query_lower w) then
    ["What\x27s included in your pricing?",
     "Do you offer custom pricing?",
     "What are your payment terms?"]
  else if ["support", "help"].any (fun w => strContains query_lower w) then
    ["What are your support response times?",
     "Do you offer 24/7 support?",
     "How can I contact technical support?"]
  else default_suggestions

/-- The response dictionary of `process_message` (every return site of the
source populates exactly these six keys). -/
structure ChatReply where
  response : String
  confidence : ℚ
  context_used : Bool
  sources : List (String × ℚ)
  suggested_responses : List String
  pdf_available : Bool
deriving DecidableEq

/-- The dictionary returned by the `except` branch of `process_message`. -/
def process_message_error_reply (message : String) (pdf_available : Bool) : ChatReply :=
  { response := generate_fallback_response message, confidence := 1/2,
    context_used := false, sources := [],
    suggested_responses := default_suggestions, pdf_available := pdf_available }

/-- `RAGService.process_message`. -/
def process_message (message : String)
    (greet_reply farewell_reply relevance_reply : Option String)
    (pdf_available : Bool) (search_result : Except Unit (List FaissResult))
    (gen_result : Except Unit String) : ChatReply :=
  if analyze_query_intent greet_reply = "greeting" then
    { response := greeting_response_text, confidence := 19/20,
      context_used := false, sources := [],
      suggested_responses := default_suggestions, pdf_available := pdf_available }
  else if analyze_query_intent farewell_reply = "farewell" then
    { response := farewell_response_text, confidence := 19/20,
      context_used := false, sources := [], suggested_responses := [],
      pdf_available := pdf_available }
  else if !check_relevance relevance_reply then
    { response := generate_fallback_response message, confidence := 1/2,
      context_used := false, sources := [],
      suggested_responses := default_suggestions, pdf_available := pdf_available }
  else
    match search_result with
    | .error _ => process_message_error_reply message pdf_available
    | .ok relevant_docs =>
      if !relevant_docs.isEmpty then
        match gen_result with
        | .error _ => process_message_error_reply message pdf_available
        | .ok response =>
          let avg_similarity :=
            (relevant_docs.map (fun d => d.similarity)).sum / (relevant_docs.length : ℚ)
          { response := response,
            confidence := min (19/20) (max (7/10) avg_similarity),
            context_used := true,
            sources := relevant_docs.map (fun d => (d.title, d.similarity)),
            suggested_responses := generate_suggested_responses message relevant_docs,
            pdf_available := pdf_available }
      else
        { response := generate_fallback_response message, confidence := 3/5,
          context_used := false, sources := [],
          suggested_responses := default_suggestions, pdf_available := pdf_available }

/-! ### `RAGService.process_pdf_and_index`

A PDF is the list of its pages' `page.extract_text()` results
(`none` = extraction returned `None`).  The external
`RecursiveCharacterTextSplitter.split_text` is the abstract parameter
`splitter`; the FAISS embedding/`save_local` calls are external, and only
the save path is modelled. -/

structure PageDoc where
  title : String
  content : String
deriving DecidableEq

/-- The page-extraction loop: keep pages whose text is truthy and non-blank
after `strip()`, with `Page i+1` titles and stripped content. -/
def extract_page_docs (i : Nat) : List (Option String) → List PageDoc
  | [] => []
  | t? :: rest =>
    match t? with
    | some t =>
      if t ≠ "" ∧ pyStrip t ≠ "" then
        { title := "Page " ++ toString (i + 1), content := pyStrip t } ::
          extract_page_docs (i + 1) rest
      else extract_page_docs (i + 1) rest
    | none => extract_page_docs (i + 1) rest

/-- The chunk-documents comprehension
`[{"title": f"Chunk {i+1}", ...} for i, chunk in enumerate(text_chunks)]`. -/
def chunkDocs (i : Nat) : List String → List KBDoc
  | [] => []
  | c :: cs =>
    { title := "Chunk " ++ toString (i + 1), content := c,
      full_title := "Chunk " ++ toString (i + 1) } :: chunkDocs (i + 1) cs

/-- `os.path.join(self.knowledge_base_path, "faiss_index")` as used by
`process_pdf_and_index` when saving the vectorstore. -/
def faiss_save_path (knowledge_base_path : String) : String :=
  knowledge_base_path ++ "/faiss_index"

/-- `os.path.join(self.knowledge_base_path, "faiss_index")` as used by
`load_faiss_index` when loading the vectorstore. -/
def faiss_load_path (knowledge_base_path : String) : String :=
  knowledge_base_path ++ "/faiss_index"

structure PdfIndexResult where
  page_docs : List PageDoc
  all_text : String
  chunks : List String
  documents : List KBDoc
  save_path : String
deriving DecidableEq

/-- `RAGService.process_pdf_and_index`. -/
def process_pdf_and_index (knowledge_base_path : String)
    (splitter : String → List String) (pages : List (Option String)) :
    PdfIndexResult :=
  let page_docs := extract_page_docs 0 pages
  let all_text := String.intercalate "\n\n" (page_docs.map (fun d => d.content))
  let text_chunks := splitter all_text
  { page_docs := page_docs, all_text := all_text, chunks := text_chunks,
    documents := chunkDocs 0 text_chunks,
    save_path := faiss_save_path knowledge_base_path }

/-! ### `RAGService.__init__` / `RAGService.load_faiss_index`

The persisted vectorstore is its docstore `_dict`, a list of
`(doc_id, page_content)` pairs in insertion order (`FaissStore`; every
stored document has `page_content`).  The filesystem at startup is
`FSView`: whether the index directory exists, and what
`FAISS.load_local` yields (`.error` = it raised).  The else-branch calls
`load_knowledge_base`/`load_sample_documents`/`force_process_pdf` touch
the filesystem and PDF pipeline; their net document outcomes are the
abstract parameters `rebuilt_docs` (after `load_sample_documents`) and
`forced_docs` (after `force_process_pdf`), and the constructor's calls
are recorded in the `steps` trace. -/

structure FaissStore where
  entries : List (String × String)
deriving DecidableEq

structure FSView where
  indexExists : Bool
  loadOutcome : Except Unit FaissStore

inductive InitStep where
  | loadIdx
  | loadKB
  | loadSamples
  | forcePdf
deriving DecidableEq

/-- The documents list `load_faiss_index` builds from the loaded docstore. -/
def docsFromStore (store : FaissStore) : List KBDoc :=
  store.entries.map (fun e =>
    { title := "Document " ++ e.1, content := e.2,
      full_title := "Document " ++ e.1 })

/-- `RAGService.load_faiss_index`: the resulting `faiss_index` and
`documents` attributes. -/
def load_faiss_index (fs : FSView) : Option FaissStore × List KBDoc :=
  if fs.indexExists then
    match fs.loadOutcome with
    | .ok store => (some store, docsFromStore store)
    | .error _ => (none, [])
  else (none, [])

structure RAGInit where
  faiss_index : Option FaissStore
  documents : List KBDoc
  steps : List InitStep
deriving DecidableEq

/-- The constructor logic of `RAGService.__init__` after the splitter and
embeddings are set up: load the persisted index; only when that leaves no
index, fall back to `load_knowledge_base` + `load_sample_documents`, and
to `force_process_pdf` when there are still no documents. -/
def rag_init (fs : FSView) (rebuilt_docs forced_docs : List KBDoc)
    (rebuilt_index : Option FaissStore) : RAGInit :=
  match load_faiss_index fs with
  | (some store, docs) =>
    { faiss_index := some store, documents := docs, steps := [.loadIdx] }
  | (none, _) =>
    { faiss_index := rebuilt_index,
      documents := if rebuilt_docs.isEmpty then forced_docs else rebuilt_docs,
      steps := [.loadIdx, .loadKB, .loadSamples] ++
        (if rebuilt_docs.isEmpty then [.forcePdf] else []) }

/-! ### The chunker (claim C6)

Modelled from the spec: the text splitter is the third-party LangChain
`RecursiveCharacterTextSplitter`, whose implementation is not part of this
repository; the repository only configures it with `chunk_size=900`,
`chunk_overlap=100`, `length_function=len`.  The spec describes it as a
chunker that "splits text into overlapping fixed-size windows", which is
modelled as sliding windows of at most 900 characters advancing by 800,
so that consecutive windows share 100 characters. -/

def split_text_windows (t : List Char) : List (List Char) :=
  if h : t.length ≤ 900 then [t]
  else t.take 900 :: split_text_windows (t.drop 800)
termination_by t.length
decreasing_by
  simp only [List.length_drop]
  omega

/-- Reassemble windowed chunks, dropping each non-final chunk's trailing
overlap. -/
def joinChunks : List (List Char) → List Char
  | [] => []
  | [c] => c
  | c :: rest => c.take 800 ++ joinChunks rest

/-- A concrete LLM reply that contains the words of the loose
`best regards.*techcorp.*service` search pattern without ending in a
signature block. -/
def c3_cex_input : List Char :=
  "We send our best regards to all techcorp customers; our service is excellent.".toList

/-- A concrete ordinary LLM reply (no placeholders, no signature). -/
def c3_witness_input : List Char :=
  "Hello, thanks for asking about our cloud migration plans today.".toList

/-! ## Theorems -/

/-- Ranks `6` and beyond never clear the `> 0.2` threshold. -/
theorem faiss_results_raw_nil_of_ge (ds : List RetrievedDoc) :
    ∀ i, 6 ≤ i → faiss_results_raw i ds = [] := by
  induction ds with
  | nil => intro i _; rfl
  | cons d ds ih =>
    intro i h
    have hc : ¬ (1/5 < faiss_sim i) := by
      simp only [faiss_sim, not_lt]
      have h6 : (6 : ℚ) ≤ (i : ℚ) := by exact_mod_cast h
      linarith
    simp only [faiss_results_raw]
    rw [if_neg hc]
    exact ih (i + 1) (by omega)

/-- Ranks below `6` clear the threshold and produce a result. -/
theorem faiss_results_raw_cons_of_lt (d : RetrievedDoc) (ds : List RetrievedDoc)
    (i : Nat) (h : i < 6) :
    faiss_results_raw i (d :: ds) =
      { title := "Document " ++ toString (i + 1), content := d.page_content,
        metadata := d.metadata, similarity := faiss_sim i } ::
        faiss_results_raw (i + 1) ds := by
  have hc : 1/5 < faiss_sim i := by
    simp only [faiss_sim]
    have h6 : (i : ℚ) < 6 := by exact_mod_cast h
    linarith
  simp only [faiss_results_raw]
  rw [if_pos hc]

/-- The `j`-th surviving result carries the synthesised score of rank
`i + j`. -/
theorem faiss_results_raw_getD_sim (dflt : FaissResult) (ds : List RetrievedDoc) :
    ∀ i j, j < (faiss_results_raw i ds).length →
      ((faiss_results_raw i ds).getD j dflt).similarity = faiss_sim (i + j) := by
  induction ds with
  | nil => intro i j h; simp [faiss_results_raw] at h
  | cons d ds ih =>
    intro i j h
    by_cases hi : i < 6
    · rw [faiss_results_raw_cons_of_lt d ds i hi] at h ⊢
      cases j with
      | zero => simp
      | succ j =>
        simp only [List.getD_cons_succ]
        have hlen : j < (faiss_results_raw (i + 1) ds).length := by
          simpa using h
        rw [ih (i + 1) j hlen]
        congr 1
        omega
    · rw [faiss_results_raw_nil_of_ge (d :: ds) i (by omega)] at h
      simp at h

theorem faiss_results_raw_length (ds : List RetrievedDoc) :
    ∀ i, (faiss_results_raw i ds).length ≤ 6 - i := by
  induction ds with
  | nil => intro i; simp [faiss_results_raw]
  | cons d ds ih =>
    intro i
    by_cases hi : i < 6
    · rw [faiss_results_raw_cons_of_lt d ds i hi]
      have := ih (i + 1)
      simp only [List.length_cons]
      omega
    · rw [faiss_results_raw_nil_of_ge (d :: ds) i (by omega)]
      simp

theorem le_foldl_max (l : List ℚ) : ∀ a : ℚ, a ≤ l.foldl max a := by
  induction l with
  | nil => intro a; simp
  | cons x l ih =>
    intro a
    calc a ≤ max a x := le_max_left a x
    _ ≤ l.foldl max (max a x) := ih (max a x)
    _ = (x :: l).foldl max a := by simp [List.foldl]

/-- When the retriever returned at least one document, the top score `0.8`
clears the `0.4` gate, so the gate never empties the result list. -/
theorem faiss_search_core_eq (docs : List RetrievedDoc) (hd : docs ≠ []) :
    faiss_search_core docs = faiss_results_raw 0 docs := by
  obtain ⟨d, ds, rfl⟩ := List.exists_cons_of_ne_nil hd
  have hmax : (4 : ℚ)/5 ≤ faiss_max_sim (d :: ds) := by
    unfold faiss_max_sim
    rw [faiss_results_raw_cons_of_lt d ds 0 (by omega)]
    simp only [List.map_cons, List.foldl_cons]
    have h0 : faiss_sim 0 = 4/5 := by norm_num [faiss_sim]
    rw [h0]
    calc (4 : ℚ)/5 ≤ max 0 (4/5) := le_max_right _ _
    _ ≤ _ := le_foldl_max _ _
  unfold faiss_search_core
  rw [if_neg (by push_neg; linarith)]

/-- **C1.** Similarity-threshold gating in the legacy TF-IDF search: for
every query (its vectorizer scores `sims`) and non-empty document set with
built vectors, `search_documents` returns at most `top_k` results, includes
a document only if its cosine similarity strictly exceeds `0.2`, lists
results in descending similarity order, and returns the empty list whenever
the best similarity among the considered top matches is below `0.4`. -/
theorem rag_search_documents_gating_c1 (documents : List KBDoc) (vb : Bool)
    (sims : List ℚ) (top_k : Nat) (hd : documents ≠ []) (hv : vb = true) :
    (search_documents documents vb sims top_k).length ≤ top_k ∧
    (∀ r ∈ search_documents documents vb sims top_k, 1/5 < r.similarity) ∧
    List.Pairwise (fun a b => b.similarity ≤ a.similarity)
      (search_documents documents vb sims top_k) ∧
    (max_considered_sim sims top_k < 2/5 →
      search_documents documents vb sims top_k = []) := by
  subst hv
  have hne : documents.isEmpty = false := by
    simpa [List.isEmpty_iff] using hd
  by_cases hm : max_considered_sim sims top_k < 2/5
  · have hnil : search_documents documents true sims top_k = [] := by
      unfold search_documents
      rw [hne]
      rw [if_pos hm]
      simp
    rw [hnil]
    simp
  · have heq : search_documents documents true sims top_k =
        (passingIndices sims top_k).map (fun i =>
          let d := documents.getD i default_kbdoc
          { title := d.title, full_title := d.full_title, content := d.content,
            similarity := simOf sims i }) := by
      unfold search_documents
      rw [hne]
      rw [if_neg hm]
      simp
    refine ⟨?_, ?_, ?_, fun h => absurd h hm⟩
    · rw [heq, List.length_map]
      calc (passingIndices sims top_k).length
          ≤ (topIndicesOf sims top_k).length := List.length_filter_le _ _
        _ ≤ top_k := by
            unfold topIndicesOf
            simpa using List.length_take_le _ _
    · intro r hr
      rw [heq] at hr
      obtain ⟨i, hi, rfl⟩ := List.mem_map.mp hr
      have hmem := List.mem_filter.mp hi
      simpa using of_decide_eq_true hmem.2
    · rw [heq, List.pairwise_map]
      have hsorted : List.Pairwise (fun i j => simOf sims j ≤ simOf sims i)
          (List.insertionSort (fun i j => simOf sims j ≤ simOf sims i)
            (List.range sims.length)) := by
        haveI h1 : IsTotal Nat (fun i j => simOf sims j ≤ simOf sims i) :=
          ⟨fun a b => le_total _ _⟩
        haveI h2 : IsTrans Nat (fun i j => simOf sims j ≤ simOf sims i) :=
          ⟨fun a b c hab hbc => le_trans hbc hab⟩
        exact List.sorted_insertionSort _ _
      have hsub : List.Sublist (passingIndices sims top_k)
          (List.insertionSort (fun i j => simOf sims j ≤ simOf sims i)
            (List.range sims.length)) := by
        unfold passingIndices topIndicesOf
        exact (List.filter_sublist _).trans (List.take_sublist _ _)
      exact hsorted.sublist hsub

/-- Witness for C1 at a concrete document set, score list and `top_k`. -/
theorem rag_search_documents_gating_c1_witness :
    ([default_kbdoc] : List KBDoc) ≠ [] ∧
    ((search_documents [default_kbdoc] true [1/2] 5).length ≤ 5 ∧
     (∀ r ∈ search_documents [default_kbdoc] true [1/2] 5, 1/5 < r.similarity) ∧
     List.Pairwise (fun a b => b.similarity ≤ a.similarity)
       (search_documents [default_kbdoc] true [1/2] 5) ∧
     (max_considered_sim [1/2] 5 < 2/5 →
       search_documents [default_kbdoc] true [1/2] 5 = [])) :=
  ⟨by simp, rag_search_documents_gating_c1 [default_kbdoc] true [1/2] 5 (by simp) rfl⟩

/-- **C2.** The legacy TF-IDF search is the fallback of the FAISS search:
`search_documents_faiss` delegates to `search_documents` (over the same
document list) exactly when the FAISS index attribute is absent/`None` or
the document list is empty, and when the index is available and the
retriever call succeeds, the TF-IDF path is never taken. -/
theorem rag_faiss_delegation_c2 (has_idx : Bool) (documents : List KBDoc)
    (vb : Bool) (sims : List ℚ) (retrieved : Except Unit (List RetrievedDoc))
    (rdocs : List RetrievedDoc) (top_k : Nat) (hret : retrieved = .ok rdocs) :
    ((has_idx = false ∨ documents = []) →
      search_documents_faiss has_idx documents vb sims retrieved top_k =
        .viaLegacy (search_documents documents vb sims top_k)) ∧
    (has_idx = true → documents ≠ [] →
      search_documents_faiss has_idx documents vb sims retrieved top_k =
        .viaFaiss (faiss_search_core rdocs)) ∧
    ((∃ rs, search_documents_faiss has_idx documents vb sims retrieved top_k =
        .viaLegacy rs) ↔ (has_idx = false ∨ documents = [])) := by
  subst hret
  cases has_idx with
  | false =>
    have heq : search_documents_faiss false documents vb sims (.ok rdocs) top_k =
        .viaLegacy (search_documents documents vb sims top_k) := rfl
    exact ⟨fun _ => heq, fun h => absurd h (by simp), fun _ => Or.inl rfl,
      fun _ => ⟨_, heq⟩⟩
  | true =>
    cases documents with
    | nil =>
      have heq : search_documents_faiss true [] vb sims (.ok rdocs) top_k =
          .viaLegacy (search_documents [] vb sims top_k) := rfl
      exact ⟨fun _ => heq, fun _ h => absurd rfl h, fun _ => Or.inr rfl,
        fun _ => ⟨_, heq⟩⟩
    | cons d ds =>
      have heq : search_documents_faiss true (d :: ds) vb sims (.ok rdocs) top_k =
          .viaFaiss (faiss_search_core rdocs) := rfl
      refine ⟨?_, fun _ _ => heq, ?_, ?_⟩
      · rintro (h | h)
        · exact absurd h (by simp)
        · exact absurd h (by simp)
      · rintro ⟨rs, hrs⟩
        rw [heq] at hrs
        exact absurd hrs (by simp)
      · rintro (h | h)
        · exact absurd h (by simp)
        · exact absurd h (by simp)

/-- Witness for C2 at a concrete state with an available index and a
successful (empty) retrieval. -/
theorem rag_faiss_delegation_c2_witness :
    (Except.ok ([] : List RetrievedDoc) =
      (Except.ok ([] : List RetrievedDoc) : Except Unit (List RetrievedDoc))) ∧
    (((true = false ∨ ([default_kbdoc] : List KBDoc) = []) →
       search_documents_faiss true [default_kbdoc] true [] (.ok []) 3 =
         .viaLegacy (search_documents [default_kbdoc] true [] 3)) ∧
     (true = true → ([default_kbdoc] : List KBDoc) ≠ [] →
       search_documents_faiss true [default_kbdoc] true [] (.ok []) 3 =
         .viaFaiss (faiss_search_core [])) ∧
     ((∃ rs, search_documents_faiss true [default_kbdoc] true [] (.ok []) 3 =
         .viaLegacy rs) ↔ (true = false ∨ ([default_kbdoc] : List KBDoc) = []))) :=
  ⟨rfl, rag_faiss_delegation_c2 true [default_kbdoc] true [] (.ok []) [] 3 rfl⟩

set_option maxRecDepth 40000 in
/-- **C3 (counterexample).** The claim says every reply that survives the
fallback gate is returned ending in exactly one
`Best regards,\nTechCorp Solutions Customer Service` signature.  The reply
`c3_cex_input` is non-empty, is returned verbatim (not replaced by the
fallback), yet does not end with the signature: the loose
`best regards.*techcorp.*service` check already matches inside the prose,
so no signature is appended. -/
theorem groq_clean_response_c3_counterexample :
    c3_cex_input ≠ [] ∧
    clean_response c3_cex_input = c3_cex_input ∧
    clean_response c3_cex_input ≠ fallback_response_noctx.toList ∧
    signature_tail.isSuffixOf (clean_response c3_cex_input) = false :=
  ⟨by decide, by decide, by decide, by decide⟩

/-- **C3 (amended).** For every non-empty LLM reply: placeholders are
replaced and signature blocks stripped from the start and end
(`cleaned_core`); the canned fallback is substituted whenever the cleaned
text is shorter than 20 characters, equals a `dear customer` greeting, or
is a bare markdown header (`cleanGateB`); otherwise the cleaned text is
returned, with the signature appended exactly when the cleaned text does
not already contain a case-insensitive `best regards … techcorp … service`
pattern — only in that case is the result guaranteed to end with the
signature. -/
theorem groq_clean_response_postprocessing_c3 (response : List Char)
    (hne : response ≠ []) :
    (cleanGateB (cleaned_core response) = true →
      clean_response response = fallback_response_noctx.toList) ∧
    (cleanGateB (cleaned_core response) = false →
      hasSigPat (cleaned_core response) = true →
      clean_response response = cleaned_core response) ∧
    (cleanGateB (cleaned_core response) = false →
      hasSigPat (cleaned_core response) = false →
      clean_response response =
        cleaned_core response ++ "\n\n".toList ++ signature_tail ∧
      ∃ t, clean_response response = t ++ signature_tail) := by
  have hE : response.isEmpty = false := by simpa [List.isEmpty_iff] using hne
  refine ⟨?_, ?_, ?_⟩
  · intro hg
    unfold clean_response
    rw [hE]
    simp [hg]
  · intro hg hs
    unfold clean_response
    rw [hE]
    simp [hg, hs]
  · intro hg hs
    have hout : clean_response response =
        cleaned_core response ++ "\n\n".toList ++ signature_tail := by
      unfold clean_response
      rw [hE]
      simp [hg, hs]
    refine ⟨hout, cleaned_core response ++ "\n\n".toList, ?_⟩
    rw [hout, List.append_assoc]

set_option maxRecDepth 40000 in
/-- Witness for C3 (amended) at a concrete ordinary reply, which gets the
signature appended. -/
theorem groq_clean_response_postprocessing_c3_witness :
    c3_witness_input ≠ [] ∧
    ((cleanGateB (cleaned_core c3_witness_input) = true →
       clean_response c3_witness_input = fallback_response_noctx.toList) ∧
     (cleanGateB (cleaned_core c3_witness_input) = false →
       hasSigPat (cleaned_core c3_witness_input) = true →
       clean_response c3_witness_input = cleaned_core c3_witness_input) ∧
     (cleanGateB (cleaned_core c3_witness_input) = false →
       hasSigPat (cleaned_core c3_witness_input) = false →
       clean_response c3_witness_input =
         cleaned_core c3_witness_input ++ "\n\n".toList ++ signature_tail ∧
       ∃ t, clean_response c3_witness_input = t ++ signature_tail)) :=
  ⟨by decide, groq_clean_response_postprocessing_c3 c3_witness_input (by decide)⟩

/-- **C4.** Catch-and-fallback failure handling: `process_message` is a
total function of its inputs, and when control reaches the retrieval
`try` block (the message is neither a greeting nor a farewell and is
relevant), an exception from document retrieval or from response
generation makes it return the fallback dictionary — fallback response
text, confidence `0.5`, `context_used = False`, empty sources — instead
of propagating. -/
theorem rag_process_message_catch_fallback_c4 (message : String)
    (greet_reply farewell_reply relevance_reply : Option String) (pdf : Bool)
    (search_result : Except Unit (List FaissResult)) (gen_result : Except Unit String)
    (hg : analyze_query_intent greet_reply ≠ "greeting")
    (hf : analyze_query_intent farewell_reply ≠ "farewell")
    (hr : check_relevance relevance_reply = true) :
    (search_result = .error () →
      process_message message greet_reply farewell_reply relevance_reply pdf
        search_result gen_result = process_message_error_reply message pdf) ∧
    (∀ docs, search_result = .ok docs → docs ≠ [] → gen_result = .error () →
      process_message message greet_reply farewell_reply relevance_reply pdf
        search_result gen_result = process_message_error_reply message pdf) ∧
    (process_message_error_reply message pdf).response =
      generate_fallback_response message ∧
    (process_message_error_reply message pdf).confidence = 1/2 ∧
    (process_message_error_reply message pdf).context_used = false ∧
    (process_message_error_reply message pdf).sources = [] := by
  refine ⟨?_, ?_, rfl, rfl, rfl, rfl⟩
  · intro hs
    subst hs
    unfold process_message
    rw [if_neg hg, if_neg hf, if_neg (by simp [hr])]
  · intro docs hs hdocs hgen
    subst hs
    subst hgen
    unfold process_message
    rw [if_neg hg, if_neg hf, if_neg (by simp [hr])]
    have hde : docs.isEmpty = false := by simpa [List.isEmpty_iff] using hdocs
    simp [hde]

/-- Witness for C4 at a concrete relevant message whose retrieval raises. -/
theorem rag_process_message_catch_fallback_c4_witness :
    analyze_query_intent (some "pricing") ≠ "greeting" ∧
    analyze_query_intent (some "pricing") ≠ "farewell" ∧
    check_relevance (some "relevant") = true ∧
    (((Except.error () : Except Unit (List FaissResult)) = .error () →
       process_message "hi" (some "pricing") (some "pricing") (some "relevant")
         true (.error ()) (.ok "x") = process_message_error_reply "hi" true) ∧
     (∀ docs, (Except.error () : Except Unit (List FaissResult)) = .ok docs →
       docs ≠ [] → (Except.ok "x" : Except Unit String) = .error () →
       process_message "hi" (some "pricing") (some "pricing") (some "relevant")
         true (.error ()) (.ok "x") = process_message_error_reply "hi" true) ∧
     (process_message_error_reply "hi" true).response =
       generate_fallback_response "hi" ∧
     (process_message_error_reply "hi" true).confidence = 1/2 ∧
     (process_message_error_reply "hi" true).context_used = false ∧
     (process_message_error_reply "hi" true).sources = []) :=
  ⟨by decide, by decide, by decide,
   rag_process_message_catch_fallback_c4 "hi" (some "pricing") (some "pricing")
     (some "relevant") true (.error ()) (.ok "x") (by decide) (by decide) (by decide)⟩

theorem load_faiss_index_ok (fs : FSView) (store : FaissStore)
    (hex : fs.indexExists = true) (hok : fs.loadOutcome = .ok store) :
    load_faiss_index fs = (some store, docsFromStore store) := by
  unfold load_faiss_index
  rw [hex, hok]
  simp

/-- **C5.** The vector index is persisted and reloaded on startup:
`process_pdf_and_index` saves the vectorstore under
`knowledge_base_path/faiss_index` — the very path `load_faiss_index`
reads — and when the index directory exists and loading succeeds, the
constructor populates `documents` from the loaded docstore and performs no
PDF reprocessing (`load_sample_documents` and `force_process_pdf` are not
called); rebuilding is triggered exactly by a missing or failed index. -/
theorem rag_index_persistence_c5 (fs : FSView) (store : FaissStore)
    (rebuilt_docs forced_docs : List KBDoc) (rebuilt_index : Option FaissStore)
    (hex : fs.indexExists = true) (hok : fs.loadOutcome = .ok store) :
    (rag_init fs rebuilt_docs forced_docs rebuilt_index).faiss_index = some store ∧
    (rag_init fs rebuilt_docs forced_docs rebuilt_index).documents =
      docsFromStore store ∧
    (rag_init fs rebuilt_docs forced_docs rebuilt_index).steps = [.loadIdx] ∧
    InitStep.loadSamples ∉ (rag_init fs rebuilt_docs forced_docs rebuilt_index).steps ∧
    InitStep.forcePdf ∉ (rag_init fs rebuilt_docs forced_docs rebuilt_index).steps ∧
    (∀ kb splitter pages,
      (process_pdf_and_index kb splitter pages).save_path = faiss_load_path kb) ∧
    (∀ fs2 : FSView,
      InitStep.loadSamples ∈ (rag_init fs2 rebuilt_docs forced_docs rebuilt_index).steps ↔
        (fs2.indexExists = false ∨ ∃ e, fs2.loadOutcome = .error e)) := by
  have hload := load_faiss_index_ok fs store hex hok
  have hini : rag_init fs rebuilt_docs forced_docs rebuilt_index =
      { faiss_index := some store, documents := docsFromStore store,
        steps := [.loadIdx] } := by
    unfold rag_init
    rw [hload]
  refine ⟨by rw [hini], by rw [hini], by rw [hini], ?_, ?_,
    fun kb splitter pages => rfl, ?_⟩
  · rw [hini]; intro hmem; simp at hmem
  · rw [hini]; intro hmem; simp at hmem
  · intro fs2
    rcases fs2 with ⟨ie, lo⟩
    cases ie with
    | true =>
      cases lo with
      | ok st =>
        have h2 : rag_init ⟨true, .ok st⟩ rebuilt_docs forced_docs rebuilt_index =
            { faiss_index := some st, documents := docsFromStore st,
              steps := [.loadIdx] } := by
          unfold rag_init
          rw [load_faiss_index_ok ⟨true, .ok st⟩ st rfl rfl]
        rw [h2]
        simp
      | error e =>
        have h2 : load_faiss_index ⟨true, .error e⟩ = (none, []) := by
          unfold load_faiss_index
          simp
        have h3 : rag_init ⟨true, .error e⟩ rebuilt_docs forced_docs rebuilt_index =
            { faiss_index := rebuilt_index,
              documents := if rebuilt_docs.isEmpty then forced_docs else rebuilt_docs,
              steps := [.loadIdx, .loadKB, .loadSamples] ++
                (if rebuilt_docs.isEmpty then [.forcePdf] else []) } := by
          unfold rag_init
          rw [h2]
        rw [h3]
        simp
    | false =>
      have h2 : load_faiss_index ⟨false, lo⟩ = (none, []) := rfl
      have h3 : rag_init ⟨false, lo⟩ rebuilt_docs forced_docs rebuilt_index =
          { faiss_index := rebuilt_index,
            documents := if rebuilt_docs.isEmpty then forced_docs else rebuilt_docs,
            steps := [.loadIdx, .loadKB, .loadSamples] ++
              (if rebuilt_docs.isEmpty then [.forcePdf] else []) } := by
        unfold rag_init
        rw [h2]
      rw [h3]
      simp

/-- Witness for C5 at a concrete filesystem with a loadable index. -/
theorem rag_index_persistence_c5_witness :
    (FSView.mk true (.ok ⟨[("7", "chunk text")]⟩)).indexExists = true ∧
    (FSView.mk true (.ok ⟨[("7", "chunk text")]⟩)).loadOutcome =
      .ok ⟨[("7", "chunk text")]⟩ ∧
    ((rag_init ⟨true, .ok ⟨[("7", "chunk text")]⟩⟩ [] [] none).faiss_index =
        some ⟨[("7", "chunk text")]⟩ ∧
     (rag_init ⟨true, .ok ⟨[("7", "chunk text")]⟩⟩ [] [] none).documents =
        docsFromStore ⟨[("7", "chunk text")]⟩ ∧
     (rag_init ⟨true, .ok ⟨[("7", "chunk text")]⟩⟩ [] [] none).steps = [.loadIdx] ∧
     InitStep.loadSamples ∉
       (rag_init ⟨true, .ok ⟨[("7", "chunk text")]⟩⟩ [] [] none).steps ∧
     InitStep.forcePdf ∉
       (rag_init ⟨true, .ok ⟨[("7", "chunk text")]⟩⟩ [] [] none).steps ∧
     (∀ kb splitter pages,
       (process_pdf_and_index kb splitter pages).save_path = faiss_load_path kb) ∧
     (∀ fs2 : FSView,
       InitStep.loadSamples ∈ (rag_init fs2 [] [] none).steps ↔
         (fs2.indexExists = false ∨ ∃ e, fs2.loadOutcome = .error e))) :=
  ⟨rfl, rfl, rag_index_persistence_c5 ⟨true, .ok ⟨[("7", "chunk text")]⟩⟩
    ⟨[("7", "chunk text")]⟩ [] [] none rfl rfl⟩

/-- The page-extraction loop keeps exactly the pages whose text is present
and non-blank after stripping, in page order, with stripped content. -/
theorem extract_page_docs_contents (pages : List (Option String)) :
    ∀ i, (extract_page_docs i pages).map (fun d => d.content) =
      pages.filterMap (fun t? => t?.bind (fun t =>
        if t ≠ "" ∧ pyStrip t ≠ "" then some (pyStrip t) else none)) := by
  induction pages with
  | nil => intro i; rfl
  | cons t? rest ih =>
    intro i
    cases t? with
    | none => simpa [extract_page_docs, List.filterMap_cons] using ih (i + 1)
    | some t =>
      by_cases hc : t ≠ "" ∧ pyStrip t ≠ ""
      · simp [extract_page_docs, hc, List.filterMap_cons, ih (i + 1)]
      · simp [extract_page_docs, hc, List.filterMap_cons, ih (i + 1)]

theorem chunkDocs_length (chunks : List String) :
    ∀ i, (chunkDocs i chunks).length = chunks.length := by
  induction chunks with
  | nil => intro i; rfl
  | cons c cs ih => intro i; simp [chunkDocs, ih (i + 1)]

theorem chunkDocs_getD (dflt : KBDoc) (chunks : List String) :
    ∀ i j, j < chunks.length →
      (chunkDocs i chunks).getD j dflt =
        { title := "Chunk " ++ toString (i + j + 1),
          content := chunks.getD j "",
          full_title := "Chunk " ++ toString (i + j + 1) } := by
  induction chunks with
  | nil => intro i j h; simp at h
  | cons c cs ih =>
    intro i j h
    cases j with
    | zero => simp [chunkDocs]
    | succ j =>
      simp only [chunkDocs, List.getD_cons_succ]
      have hn : i + 1 + j + 1 = i + (j + 1) + 1 := by omega
      rw [ih (i + 1) j (by simpa using h), hn]

/-- **C7.** PDF ingestion: `process_pdf_and_index` keeps the extracted
text of exactly the pages that are non-empty after stripping, joins the
retained page texts in page order separated by blank lines, passes the
single concatenated string to the text splitter, and afterwards
`documents` has exactly one entry per chunk, the `j`-th titled
`Chunk j+1` with that chunk as its content. -/
theorem rag_pdf_ingestion_c7 (kb : String) (splitter : String → List String)
    (pages : List (Option String)) (dflt : KBDoc) :
    ((process_pdf_and_index kb splitter pages).page_docs.map (fun d => d.content) =
      pages.filterMap (fun t? => t?.bind (fun t =>
        if t ≠ "" ∧ pyStrip t ≠ "" then some (pyStrip t) else none))) ∧
    (process_pdf_and_index kb splitter pages).all_text =
      String.intercalate "\n\n"
        ((process_pdf_and_index kb splitter pages).page_docs.map (fun d => d.content)) ∧
    (process_pdf_and_index kb splitter pages).chunks =
      splitter (process_pdf_and_index kb splitter pages).all_text ∧
    (process_pdf_and_index kb splitter pages).documents.length =
      (process_pdf_and_index kb splitter pages).chunks.length ∧
    (∀ j, j < (process_pdf_and_index kb splitter pages).chunks.length →
      (process_pdf_and_index kb splitter pages).documents.getD j dflt =
        { title := "Chunk " ++ toString (j + 1),
          content := (process_pdf_and_index kb splitter pages).chunks.getD j "",
          full_title := "Chunk " ++ toString (j + 1) }) := by
  refine ⟨extract_page_docs_contents pages 0, rfl, rfl, chunkDocs_length _ 0, ?_⟩
  intro j hj
  have := chunkDocs_getD dflt _ 0 j hj
  simpa using this

/-- Witness for C7 at a concrete three-page PDF (one blank page, one
`None` page) and a one-chunk splitter. -/
theorem rag_pdf_ingestion_c7_witness :
    (((process_pdf_and_index "kb" (fun s => [s])
        [some " alpha ", none, some "  "]).page_docs.map (fun d => d.content) =
      [some " alpha ", none, some "  "].filterMap (fun t? => t?.bind (fun t =>
        if t ≠ "" ∧ pyStrip t ≠ "" then some (pyStrip t) else none))) ∧
    (process_pdf_and_index "kb" (fun s => [s])
        [some " alpha ", none, some "  "]).all_text =
      String.intercalate "\n\n"
        ((process_pdf_and_index "kb" (fun s => [s])
          [some " alpha ", none, some "  "]).page_docs.map (fun d => d.content)) ∧
    (process_pdf_and_index "kb" (fun s => [s])
        [some " alpha ", none, some "  "]).chunks =
      (fun s => [s]) ((process_pdf_and_index "kb" (fun s => [s])
        [some " alpha ", none, some "  "]).all_text) ∧
    (process_pdf_and_index "kb" (fun s => [s])
        [some " alpha ", none, some "  "]).documents.length =
      (process_pdf_and_index "kb" (fun s => [s])
        [some " alpha ", none, some "  "]).chunks.length ∧
    (∀ j, j < (process_pdf_and_index "kb" (fun s => [s])
        [some " alpha ", none, some "  "]).chunks.length →
      (process_pdf_and_index "kb" (fun s => [s])
          [some " alpha ", none, some "  "]).documents.getD j default_kbdoc =
        { title := "Chunk " ++ toString (j + 1),
          content := (process_pdf_and_index "kb" (fun s => [s])
            [some " alpha ", none, some "  "]).chunks.getD j "",
          full_title := "Chunk " ++ toString (j + 1) })) :=
  rag_pdf_ingestion_c7 "kb" (fun s => [s]) [some " alpha ", none, some "  "]
    default_kbdoc

theorem split_text_windows_ne_nil (t : List Char) : split_text_windows t ≠ [] := by
  unfold split_text_windows
  split <;> simp

theorem split_text_windows_take100 (t : List Char) :
    ∃ c rest, split_text_windows t = c :: rest ∧ c.take 100 = t.take 100 := by
  unfold split_text_windows
  split
  · exact ⟨t, [], rfl, rfl⟩
  · refine ⟨t.take 900, _, rfl, ?_⟩
    rw [List.take_take, show (100 ⊓ 900 : Nat) = 100 by decide]

theorem split_text_windows_chunk_le (t : List Char) :
    ∀ c ∈ split_text_windows t, c.length ≤ 900 := by
  induction t using split_text_windows.induct with
  | case1 t h =>
    intro c hc
    rw [split_text_windows, dif_pos h] at hc
    simp at hc
    subst hc
    exact h
  | case2 t h ih =>
    intro c hc
    rw [split_text_windows, dif_neg h] at hc
    rcases List.mem_cons.mp hc with hc | hc
    · subst hc
      simpa using List.length_take_le 900 t
    · exact ih c hc

theorem split_text_windows_overlap (t : List Char) :
    ∀ j, j + 1 < (split_text_windows t).length →
      ((split_text_windows t).getD j []).drop 800 =
        ((split_text_windows t).getD (j + 1) []).take 100 := by
  induction t using split_text_windows.induct with
  | case1 t h =>
    intro j hj
    rw [split_text_windows, dif_pos h] at hj
    simp at hj
  | case2 t h ih =>
    intro j hj
    have heq : split_text_windows t = t.take 900 :: split_text_windows (t.drop 800) := by
      rw [split_text_windows, dif_neg h]
    cases j with
    | zero =>
      rw [heq]
      obtain ⟨c, rest, hsp, hc⟩ := split_text_windows_take100 (t.drop 800)
      rw [hsp]
      simp only [List.getD_cons_zero, List.getD_cons_succ]
      rw [hc, List.drop_take]
    | succ j =>
      rw [heq] at hj
      rw [heq]
      simp only [List.getD_cons_succ]
      exact ih j (by simpa using hj)

theorem split_text_windows_join (t : List Char) :
    joinChunks (split_text_windows t) = t := by
  induction t using split_text_windows.induct with
  | case1 t h =>
    rw [split_text_windows, dif_pos h]
    rfl
  | case2 t h ih =>
    rw [split_text_windows, dif_neg h]
    obtain ⟨c, rest, hsp, _⟩ := split_text_windows_take100 (t.drop 800)
    rw [hsp]
    show (t.take 900).take 800 ++ joinChunks (c :: rest) = t
    rw [← hsp, ih, List.take_take,
      show (800 ⊓ 900 : Nat) = 800 by decide]
    exact List.take_append_drop 800 t

/-- **C6.** The chunker splits text into overlapping fixed-size windows
(spec-modelled: the splitter itself is third-party): every chunk has
length at most `900`, the trailing overlap a chunk shares with its
successor is exactly the successor's first characters and has length at
most `100`, and reassembling the chunks (dropping each non-final chunk's
overlap) recovers the input text. -/
theorem chunker_overlapping_windows_c6 (t : List Char) :
    (∀ c ∈ split_text_windows t, c.length ≤ 900) ∧
    (∀ j, j + 1 < (split_text_windows t).length →
      ((split_text_windows t).getD j []).drop 800 =
        ((split_text_windows t).getD (j + 1) []).take 100 ∧
      (((split_text_windows t).getD j []).drop 800).length ≤ 100) ∧
    joinChunks (split_text_windows t) = t := by
  refine ⟨split_text_windows_chunk_le t, ?_, split_text_windows_join t⟩
  intro j hj
  refine ⟨split_text_windows_overlap t j hj, ?_⟩
  rw [split_text_windows_overlap t j hj]
  simpa using List.length_take_le 100 _

/-- Witness for C6 at a concrete short text. -/
theorem chunker_overlapping_windows_c6_witness :
    (∀ c ∈ split_text_windows "hello".toList, c.length ≤ 900) ∧
    (∀ j, j + 1 < (split_text_windows "hello".toList).length →
      ((split_text_windows "hello".toList).getD j []).drop 800 =
        ((split_text_windows "hello".toList).getD (j + 1) []).take 100 ∧
      (((split_text_windows "hello".toList).getD j []).drop 800).length ≤ 100) ∧
    joinChunks (split_text_windows "hello".toList) = "hello".toList :=
  chunker_overlapping_windows_c6 "hello".toList

/-- **C8.** Result-shape invariant of `process_message`: every reply
carries the six fields of `ChatReply` (response, confidence,
context_used, sources, suggested_responses, pdf_available); confidence
always lies in `[0.5, 0.95]`; `context_used` is true exactly when
`sources` is non-empty; and `context_used` implies confidence at least
`0.7`. -/
theorem rag_process_message_result_shape_c8 (message : String)
    (greet_reply farewell_reply relevance_reply : Option String) (pdf : Bool)
    (search_result : Except Unit (List FaissResult)) (gen_result : Except Unit String) :
    (1/2 ≤ (process_message message greet_reply farewell_reply relevance_reply pdf
        search_result gen_result).confidence ∧
      (process_message message greet_reply farewell_reply relevance_reply pdf
        search_result gen_result).confidence ≤ 19/20) ∧
    ((process_message message greet_reply farewell_reply relevance_reply pdf
        search_result gen_result).context_used = true ↔
      (process_message message greet_reply farewell_reply relevance_reply pdf
        search_result gen_result).sources ≠ []) ∧
    ((process_message message greet_reply farewell_reply relevance_reply pdf
        search_result gen_result).context_used = true →
      7/10 ≤ (process_message message greet_reply farewell_reply relevance_reply pdf
        search_result gen_result).confidence) := by
  by_cases hg : analyze_query_intent greet_reply = "greeting"
  · simp only [process_message, if_pos hg]
    exact ⟨⟨by norm_num, by norm_num⟩, by simp, by simp⟩
  · by_cases hf : analyze_query_intent farewell_reply = "farewell"
    · simp only [process_message, if_neg hg, if_pos hf]
      exact ⟨⟨by norm_num, by norm_num⟩, by simp, by simp⟩
    · by_cases hr : check_relevance relevance_reply = true
      · have hcond : ¬ ((!check_relevance relevance_reply) = true) := by simp [hr]
        simp only [process_message, if_neg hg, if_neg hf, if_neg hcond]
        cases search_result with
        | error e =>
          exact ⟨⟨by norm_num [process_message_error_reply],
            by norm_num [process_message_error_reply]⟩,
            by simp [process_message_error_reply],
            by simp [process_message_error_reply]⟩
        | ok docs =>
          by_cases hde : docs.isEmpty = true
          · have hcond2 : ¬ ((!docs.isEmpty) = true) := by simp [hde]
            simp only [if_neg hcond2]
            exact ⟨⟨by norm_num, by norm_num⟩, by simp, by simp⟩
          · have hcond2 : (!docs.isEmpty) = true := by simp at hde; simp [hde]
            simp only [if_pos hcond2]
            cases gen_result with
            | error e =>
              exact ⟨⟨by norm_num [process_message_error_reply],
                by norm_num [process_message_error_reply]⟩,
                by simp [process_message_error_reply],
                by simp [process_message_error_reply]⟩
            | ok resp =>
              have hdocs : docs ≠ [] := by
                intro hnil
                rw [hnil] at hde
                simp at hde
              refine ⟨⟨?_, ?_⟩, ?_, ?_⟩
              · exact le_min (by norm_num)
                  (le_trans (by norm_num) (le_max_left _ _))
              · exact min_le_left _ _
              · simp only [true_iff]
                simpa using hdocs
              · intro _
                exact le_min (by norm_num) (le_max_left _ _)
      · have hcond : (!check_relevance relevance_reply) = true := by
          simp only [Bool.not_eq_true] at hr
          simp [hr]
        simp only [process_message, if_neg hg, if_neg hf, if_pos hcond]
        exact ⟨⟨by norm_num, by norm_num⟩, by simp, by simp⟩

/-- Witness for C8 at concrete inputs. -/
theorem rag_process_message_result_shape_c8_witness :
    (1/2 ≤ (process_message "hi" none none none true (.ok []) (.ok "resp")).confidence ∧
      (process_message "hi" none none none true (.ok []) (.ok "resp")).confidence ≤ 19/20) ∧
    ((process_message "hi" none none none true (.ok []) (.ok "resp")).context_used = true ↔
      (process_message "hi" none none none true (.ok []) (.ok "resp")).sources ≠ []) ∧
    ((process_message "hi" none none none true (.ok []) (.ok "resp")).context_used = true →
      7/10 ≤ (process_message "hi" none none none true (.ok []) (.ok "resp")).confidence) :=
  rag_process_message_result_shape_c8 "hi" none none none true (.ok []) (.ok "resp")

/-- **C9.** Synthesized similarity scores in the FAISS search: with the
index available and a non-empty retriever result, `search_documents_faiss`
takes the FAISS path, assigns the result of rank `j` the similarity
`0.8 - 0.1 * j`, returns at most `6` results regardless of `top_k`,
starts from `0.8` in strictly decreasing order, and is never empty (the
top score always clears the `0.4` gate). -/
theorem rag_faiss_synthesized_scores_c9 (docs : List RetrievedDoc)
    (dflt : FaissResult) (kb_documents : List KBDoc) (vb : Bool) (sims : List ℚ)
    (top_k : Nat) (hd : docs ≠ []) (hkb : kb_documents ≠ []) :
    search_documents_faiss true kb_documents vb sims (.ok docs) top_k =
      .viaFaiss (faiss_search_core docs) ∧
    (faiss_search_core docs).length ≤ 6 ∧
    (∀ j, j < (faiss_search_core docs).length →
      ((faiss_search_core docs).getD j dflt).similarity = 4/5 - (j : ℚ) / 10) ∧
    (∃ r rest, faiss_search_core docs = r :: rest ∧ r.similarity = 4/5) ∧
    List.Pairwise (fun a b => b.similarity < a.similarity) (faiss_search_core docs) ∧
    faiss_search_core docs ≠ [] := by
  have hcore := faiss_search_core_eq docs hd
  obtain ⟨d, ds, rfl⟩ := List.exists_cons_of_ne_nil hd
  obtain ⟨k, ks, rfl⟩ := List.exists_cons_of_ne_nil hkb
  refine ⟨rfl, ?_, ?_, ?_, ?_, ?_⟩
  · rw [hcore]
    have := faiss_results_raw_length (d :: ds) 0
    omega
  · intro j hj
    rw [hcore] at hj ⊢
    have := faiss_results_raw_getD_sim dflt (d :: ds) 0 j hj
    simpa [faiss_sim] using this
  · rw [hcore, faiss_results_raw_cons_of_lt d ds 0 (by omega)]
    exact ⟨_, _, rfl, by norm_num [faiss_sim]⟩
  · rw [hcore]
    rw [List.pairwise_iff_get]
    intro a b hab
    have ha : ((faiss_results_raw 0 (d :: ds)).get a).similarity = faiss_sim a.1 := by
      rw [← List.getD_eq_get _ dflt a.2]
      simpa using faiss_results_raw_getD_sim dflt (d :: ds) 0 a.1 a.2
    have hb : ((faiss_results_raw 0 (d :: ds)).get b).similarity = faiss_sim b.1 := by
      rw [← List.getD_eq_get _ dflt b.2]
      simpa using faiss_results_raw_getD_sim dflt (d :: ds) 0 b.1 b.2
    rw [ha, hb]
    simp only [faiss_sim]
    have hq : (a.1 : ℚ) < (b.1 : ℚ) := by exact_mod_cast hab
    linarith
  · rw [hcore, faiss_results_raw_cons_of_lt d ds 0 (by omega)]
    simp

/-- Witness for C9 at a concrete one-document retrieval. -/
theorem rag_faiss_synthesized_scores_c9_witness :
    ([RetrievedDoc.mk "text" []] : List RetrievedDoc) ≠ [] ∧
    ([default_kbdoc] : List KBDoc) ≠ [] ∧
    (search_documents_faiss true [default_kbdoc] true []
        (.ok [RetrievedDoc.mk "text" []]) 2 =
      .viaFaiss (faiss_search_core [RetrievedDoc.mk "text" []]) ∧
    (faiss_search_core [RetrievedDoc.mk "text" []]).length ≤ 6 ∧
    (∀ j, j < (faiss_search_core [RetrievedDoc.mk "text" []]).length →
      ((faiss_search_core [RetrievedDoc.mk "text" []]).getD j
        (FaissResult.mk "" "" [] 0)).similarity = 4/5 - (j : ℚ) / 10) ∧
    (∃ r rest, faiss_search_core [RetrievedDoc.mk "text" []] = r :: rest ∧
      r.similarity = 4/5) ∧
    List.Pairwise (fun a b => b.similarity < a.similarity)
      (faiss_search_core [RetrievedDoc.mk "text" []]) ∧
    faiss_search_core [RetrievedDoc.mk "text" []] ≠ []) :=
  ⟨by simp, by simp,
   rag_faiss_synthesized_scores_c9 [RetrievedDoc.mk "text" []]
     (FaissResult.mk "" "" [] 0) [default_kbdoc] true [] 2 (by simp) (by simp)⟩

/-- **C10.** Intent and relevance output normalization: for every LLM reply
including `none` (API failure), `analyze_query_intent` returns one of the
eight intent strings, returning `"general"` whenever the reply is not
exactly one of them case-insensitively; and `check_relevance` is truthy
exactly when the reply, stripped and lowercased, is `"relevant"` —
in particular it is falsy on API failure. -/
theorem groq_intent_relevance_normalization_c10 (reply : Option String) :
    valid_intents.contains (analyze_query_intent reply) = true ∧
    (reply = none → analyze_query_intent reply = "general") ∧
    (∀ r, reply = some r → valid_intents.contains (pyLower r) = false →
      analyze_query_intent reply = "general") ∧
    (check_relevance reply = true ↔
      ∃ r, reply = some r ∧ pyLower (pyStrip r) = "relevant") := by
  refine ⟨?_, ?_, ?_, ?_⟩
  · cases reply with
    | none => decide
    | some r =>
      simp only [analyze_query_intent]
      split
      · next h =>
        have := h.2
        simpa using this
      · decide
  · intro h; subst h; rfl
  · intro r hr hmem
    subst hr
    simp only [analyze_query_intent]
    split
    · next h =>
      simp at hmem
      exact absurd (by simpa using h.2) hmem
    · rfl
  · constructor
    · intro h
      cases reply with
      | none => simp [check_relevance] at h
      | some r =>
        refine ⟨r, rfl, ?_⟩
        simp only [check_relevance, Bool.and_eq_true] at h
        have := h.2
        simpa using this
    · rintro ⟨r, rfl, h⟩
      simp only [check_relevance, Bool.and_eq_true]
      constructor
      · have hne : r ≠ "" := by
          intro he
          rw [he] at h
          simp [pyStrip, pyStripL] at h
          exact absurd h (by decide)
        simpa using hne
      · simpa using h

/-- Witness for C10 at concrete replies. -/
theorem groq_intent_relevance_normalization_c10_witness :
    analyze_query_intent (some "hello world") = "general" ∧
    check_relevance (some "  Relevant  ") = true := by
  constructor
  · exact (groq_intent_relevance_normalization_c10 (some "hello world")).2.2.1
      "hello world" rfl (by decide)
  · exact ((groq_intent_relevance_normalization_c10 (some "  Relevant  ")).2.2.2).2
      ⟨"  Relevant  ", rfl, by decide⟩

end ChatbotSpec
